import Mathlib

/-!
Verification development for the `create_icon.py` script of the
V3-Print-Agent repository.

The script draws a stylized printer icon with PIL at a given pixel size
and packages renders into a single `.ico` container.  We give a shallow
embedding:

* geometry is carried out in exact rationals (`ℚ`), mirroring the float
  expressions of the source (`size * 0.25`, `size / 64.0`, ...);
* an image is a pixel function `ℤ → ℤ → RGBA` together with its
  dimensions;
* the five PIL draw calls of `create_printer_icon` become a list of
  `Shape`s applied in program order by a fold, so that a later draw
  overwrites an earlier one on overlapping pixels, exactly as PIL's
  sequential in-place drawing does;
* the drawing primitives themselves (`Shape.covers`, `Shape.colorAt`)
  are modelled from the spec: a rectangle `[x0, y0, x1, y1]` covers the
  integer pixels of `[int x0, int x1] × [int y0, int y1]` (PIL truncates
  float coordinates, which is `Int.floor` for the nonnegative
  coordinates used here) and strokes an inscribed border of the given
  width; a filled circle covers the pixels within its radius and strokes
  an inscribed ring of the given width.  PIL draws with hard edges (no
  antialiasing), so a pixel either receives a full shape color or is
  left untouched.  RGB fill tuples on an RGBA image get alpha 255.
* `main` is embedded by the data it passes to the ICO encoder: the
  collected render list, and the save call `icons[-1].save(..., format
  = ICO, sizes = [(s, s) for s in sizes])`, which receives only the last
  collected image.
-/

namespace PrintIcon

/-- An RGBA color, one byte per channel. -/
structure RGBA where
  r : Nat
  g : Nat
  b : Nat
  a : Nat
deriving DecidableEq, Repr

/-- The fully transparent background `(0, 0, 0, 0)` of line 13. -/
def transparent : RGBA := ⟨0, 0, 0, 0⟩

/-- Steel blue `(70, 130, 180)`, line 20 (opaque when drawn on RGBA). -/
def printer_body_color : RGBA := ⟨70, 130, 180, 255⟩

/-- White `(255, 255, 255)`, line 21. -/
def paper_color : RGBA := ⟨255, 255, 255, 255⟩

/-- Dark blue `(40, 80, 120)`, line 22. -/
def outline_color : RGBA := ⟨40, 80, 120, 255⟩

/-- Light blue `(100, 180, 255)`, line 23. -/
def accent_color : RGBA := ⟨100, 180, 255, 255⟩

/-- The power button fill `(100, 200, 100)`, line 72. -/
def button_fill_color : RGBA := ⟨100, 200, 100, 255⟩

/-- The paper tray fill `(60, 110, 160)`, line 83. -/
def tray_fill_color : RGBA := ⟨60, 110, 160, 255⟩

/-- `scale = size / 64.0`, line 17. -/
def scale (S : ℕ) : ℚ := S / 64

/-- `line_width = max(1, int(2 * scale))`, line 26.  Python `int`
truncates toward zero, which for the nonnegative `2 * scale` is the
floor. -/
def line_width (S : ℕ) : ℕ := max 1 (Int.toNat ⌊2 * scale S⌋)

/-- `paper_x = size * 0.25`, line 29. -/
def paper_x (S : ℕ) : ℚ := S * 0.25

/-- `paper_y = size * 0.05`, line 30. -/
def paper_y (S : ℕ) : ℚ := S * 0.05

/-- `paper_w = size * 0.5`, line 31. -/
def paper_w (S : ℕ) : ℚ := S * 0.5

/-- `paper_h = size * 0.3`, line 32. -/
def paper_h (S : ℕ) : ℚ := S * 0.3

/-- `body_x = size * 0.15`, line 43. -/
def body_x (S : ℕ) : ℚ := S * 0.15

/-- `body_y = size * 0.25`, line 44. -/
def body_y (S : ℕ) : ℚ := S * 0.25

/-- `body_w = size * 0.7`, line 45. -/
def body_w (S : ℕ) : ℚ := S * 0.7

/-- `body_h = size * 0.5`, line 46. -/
def body_h (S : ℕ) : ℚ := S * 0.5

/-- `panel_y = body_y + body_h * 0.3`, line 57. -/
def panel_y (S : ℕ) : ℚ := body_y S + body_h S * 0.3

/-- `button_x = body_x + body_w * 0.8`, line 67. -/
def button_x (S : ℕ) : ℚ := body_x S + body_w S * 0.8

/-- `button_y = body_y + body_h * 0.15`, line 68. -/
def button_y (S : ℕ) : ℚ := body_y S + body_h S * 0.15

/-- `button_r = size * 0.05`, line 69. -/
def button_r (S : ℕ) : ℚ := S * 0.05

/-- `tray_y = body_y + body_h`, line 78. -/
def tray_y (S : ℕ) : ℚ := body_y S + body_h S

/-- `tray_h = size * 0.15`, line 79. -/
def tray_h (S : ℕ) : ℚ := S * 0.15

/-- A drawing primitive of the script: a filled, outlined rectangle
given by its corner coordinates, or a filled, outlined circle given by
center and radius (PIL's `ellipse` receives the bounding box
`[cx - r, cy - r, cx + r, cy + r]`; we store center and radius). -/
inductive Shape where
  | rect (x0 y0 x1 y1 : ℚ) (fill outl : RGBA) (w : ℕ)
  | circle (cx cy rad : ℚ) (fill outl : RGBA) (w : ℕ)
deriving DecidableEq, Repr

/-- Modelled from the spec: whether a drawing primitive touches the
integer pixel `(x, y)`.  A rectangle covers the pixels of
`[int x0, int x1] × [int y0, int y1]` (PIL truncates float
coordinates); a circle covers the pixels within its radius. -/
def Shape.covers (s : Shape) (x y : ℤ) : Bool :=
  match s with
  | .rect x0 y0 x1 y1 _ _ _ =>
      decide (⌊x0⌋ ≤ x ∧ x ≤ ⌊x1⌋ ∧ ⌊y0⌋ ≤ y ∧ y ≤ ⌊y1⌋)
  | .circle cx cy rad _ _ _ =>
      decide (((x : ℚ) - cx) ^ 2 + ((y : ℚ) - cy) ^ 2 ≤ rad ^ 2)

/-- Modelled from the spec: the color a primitive writes at a pixel it
covers.  The stroke of width `w` is inscribed: a rectangle paints its
outline color on the pixels within `w` of its border and its fill color
inside; a circle paints its fill color on the pixels within `rad - w`
of the center and its outline color on the remaining ring. -/
def Shape.colorAt (s : Shape) (x y : ℤ) : RGBA :=
  match s with
  | .rect x0 y0 x1 y1 fill outl w =>
      if x < ⌊x0⌋ + w ∨ ⌊x1⌋ - w < x ∨ y < ⌊y0⌋ + w ∨ ⌊y1⌋ - w < y then outl
      else fill
  | .circle cx cy rad fill outl w =>
      if ((x : ℚ) - cx) ^ 2 + ((y : ℚ) - cy) ^ 2 ≤ (rad - w) ^ 2 then fill
      else outl

/-- The fill color of a primitive. -/
def Shape.fillC : Shape → RGBA
  | .rect _ _ _ _ fill _ _ => fill
  | .circle _ _ _ fill _ _ => fill

/-- The outline color of a primitive. -/
def Shape.outlC : Shape → RGBA
  | .rect _ _ _ _ _ outl _ => outl
  | .circle _ _ _ _ outl _ => outl

/-- The stroke width of a primitive. -/
def Shape.strokeW : Shape → ℕ
  | .rect _ _ _ _ _ _ w => w
  | .circle _ _ _ _ _ w => w

/-- The left coordinate of a primitive (for a circle, of its bounding
box, which is what the source passes to PIL). -/
def Shape.left : Shape → ℚ
  | .rect x0 _ _ _ _ _ _ => x0
  | .circle cx _ rad _ _ _ => cx - rad

/-- The right coordinate of a primitive (for a circle, of its bounding
box). -/
def Shape.right : Shape → ℚ
  | .rect _ _ x1 _ _ _ _ => x1
  | .circle cx _ rad _ _ _ => cx + rad

/-- The `draw.rectangle` call of lines 35-40 (output paper). -/
def paperShape (S : ℕ) : Shape :=
  .rect (paper_x S) (paper_y S) (paper_x S + paper_w S) (paper_y S + paper_h S)
    paper_color outline_color (line_width S)

/-- The `draw.rectangle` call of lines 49-54 (printer body). -/
def bodyShape (S : ℕ) : Shape :=
  .rect (body_x S) (body_y S) (body_x S + body_w S) (body_y S + body_h S)
    printer_body_color outline_color (line_width S)

/-- The `draw.rectangle` call of lines 58-63 (accent front panel). -/
def panelShape (S : ℕ) : Shape :=
  .rect (body_x S + 2 * line_width S) (panel_y S)
    (body_x S + body_w S - 2 * line_width S) (body_y S + body_h S - 2 * line_width S)
    accent_color outline_color (max 1 (line_width S - 1))

/-- The `draw.ellipse` call of lines 70-75 (power button). -/
def buttonShape (S : ℕ) : Shape :=
  .circle (button_x S) (button_y S) (button_r S)
    button_fill_color outline_color (max 1 (line_width S - 1))

/-- The `draw.rectangle` call of lines 81-86 (paper tray). -/
def trayShape (S : ℕ) : Shape :=
  .rect (body_x S) (tray_y S) (body_x S + body_w S) (tray_y S + tray_h S)
    tray_fill_color outline_color (line_width S)

/-- The draw calls of `create_printer_icon`, in program order; the
power button is drawn only when `size >= 32` (line 66). -/
def drawList (S : ℕ) : List Shape :=
  [paperShape S, bodyShape S, panelShape S]
    ++ (if 32 ≤ S then [buttonShape S] else []) ++ [trayShape S]

/-- Sequential in-place drawing: starting from the transparent
background, each primitive in turn overwrites the pixels it covers. -/
def paintPixel (l : List Shape) (x y : ℤ) : RGBA :=
  l.foldl (fun c s => if s.covers x y then s.colorAt x y else c) transparent

/-- A raster image: dimensions and a pixel function. -/
structure Img where
  width : ℕ
  height : ℕ
  pix : ℤ → ℤ → RGBA

/-- `create_printer_icon(size)`, lines 10-88: a `size` by `size` RGBA
image with transparent background on which the draw list is applied in
order. -/
def create_printer_icon (S : ℕ) : Img :=
  ⟨S, S, fun x y => paintPixel (drawList S) x y⟩

/-- `sizes = [16, 32, 48, 256]`, line 92. -/
def sizesList : List ℕ := [16, 32, 48, 256]

/-- The `icons` list collected by the loop of lines 97-100, for an
arbitrary renderer (generalized so that dependence of the output on the
collected images can be stated). -/
def iconsOf (render : ℕ → Img) : List Img := sizesList.map render

/-- The data `main` hands to the imaging library's `save` on lines
108-112: the receiver image `icons[-1]`, the format string, and the
requested `(width, height)` size entries. -/
structure SaveCall where
  image : Img
  fmt : List Char
  sizeEntries : List (ℕ × ℕ)

/-- The save call issued by `main` (lines 108-112): only the last
collected icon is passed to the encoder, together with
`sizes = [(s, s) for s in sizes]`. -/
def saveCallOf (render : ℕ → Img) : SaveCall where
  image := (iconsOf render).getLast (by simp [iconsOf, sizesList])
  fmt := ['I', 'C', 'O']
  sizeEntries := sizesList.map (fun s => (s, s))

/-! ### Helper lemmas (shared, not claim-specific) -/

/-- The pixel function of the renderer is the sequential application of
the draw list. -/
theorem cpi_pix (S : ℕ) (x y : ℤ) :
    (create_printer_icon S).pix x y = paintPixel (drawList S) x y := rfl

/-- The image `main` passes to the encoder is the last collected
render, the 256x256 one. -/
theorem saveCallOf_image (render : ℕ → Img) :
    (saveCallOf render).image = render 256 := rfl

/-- If no primitive of a list touches a pixel, the fold leaves the
accumulated color unchanged. -/
theorem foldl_of_not_covered (x y : ℤ) (l : List Shape) (c : RGBA)
    (h : ∀ s ∈ l, s.covers x y = false) :
    l.foldl (fun c s => if s.covers x y then s.colorAt x y else c) c = c := by
  induction l generalizing c with
  | nil => rfl
  | cons s t ih =>
      have hs : s.covers x y = false := h s (List.mem_cons_self s t)
      simp only [List.foldl_cons, hs, Bool.false_eq_true, if_false]
      exact ih c fun u hu => h u (List.mem_cons_of_mem s hu)

/-- A painted pixel is either the untouched background or the color
written by one of the primitives of the list. -/
theorem paintPixel_cases (l : List Shape) (x y : ℤ) :
    paintPixel l x y = transparent ∨
      ∃ s ∈ l, paintPixel l x y = s.colorAt x y := by
  unfold paintPixel
  generalize transparent = c
  induction l generalizing c with
  | nil => exact Or.inl rfl
  | cons s t ih =>
      simp only [List.foldl_cons]
      by_cases hs : s.covers x y
      · simp only [hs, if_true]
        rcases ih (s.colorAt x y) with h0 | ⟨u, hu, hu2⟩
        · exact Or.inr ⟨s, List.mem_cons_self s t, h0⟩
        · exact Or.inr ⟨u, List.mem_cons_of_mem s hu, hu2⟩
      · simp only [hs, if_false]
        rcases ih c with h0 | ⟨u, hu, hu2⟩
        · exact Or.inl h0
        · exact Or.inr ⟨u, List.mem_cons_of_mem s hu, hu2⟩

/-- Every primitive writes either its fill color or its outline
color. -/
theorem colorAt_fill_or_outl (s : Shape) (x y : ℤ) :
    s.colorAt x y = s.fillC ∨ s.colorAt x y = s.outlC := by
  cases s with
  | rect x0 y0 x1 y1 fill outl w =>
      simp only [Shape.colorAt, Shape.fillC, Shape.outlC]
      split
      · exact Or.inr rfl
      · exact Or.inl rfl
  | circle cx cy rad fill outl w =>
      simp only [Shape.colorAt, Shape.fillC, Shape.outlC]
      split
      · exact Or.inl rfl
      · exact Or.inr rfl

/-- Normal form of the button center abscissa:
`0.15 S + 0.7 S * 0.8 = 71/100 S`. -/
theorem button_x_eq (S : ℕ) : button_x S = 71 / 100 * S := by
  unfold button_x body_x body_w; norm_num; ring

/-- Normal form of the button center ordinate:
`0.25 S + 0.5 S * 0.15 = 13/40 S`. -/
theorem button_y_eq (S : ℕ) : button_y S = 13 / 40 * S := by
  unfold button_y body_y body_h; norm_num; ring

/-- Normal form of the button radius. -/
theorem button_r_eq (S : ℕ) : button_r S = 1 / 20 * S := by
  unfold button_r; norm_num; ring

/-- Normal form of the tray top edge: `0.25 S + 0.5 S = 3/4 S`. -/
theorem tray_y_eq (S : ℕ) : tray_y S = 3 / 4 * S := by
  unfold tray_y body_y body_h; norm_num; ring

/-- With the button present (`32 ≤ S`), the draw list is the five
shapes in program order. -/
theorem drawList_of_ge (S : ℕ) (h : 32 ≤ S) :
    drawList S = [paperShape S, bodyShape S, panelShape S, buttonShape S,
      trayShape S] := by
  unfold drawList; rw [if_pos h]; rfl

/-- Without the button (`S < 32`), the draw list is the four
rectangles in program order. -/
theorem drawList_of_lt (S : ℕ) (h : S < 32) :
    drawList S = [paperShape S, bodyShape S, panelShape S, trayShape S] := by
  unfold drawList; rw [if_neg (by omega)]; rfl

/-! ### Claims -/

/-- C1, counterexample.  The claim says the written container embeds
exactly the four collected rendered images, the stored 16x16, 32x32 and
48x48 ones being pixel-identical to `render(16)`, `render(32)` and
`render(48)`.  In fact `main` hands the encoder only `icons[-1]`: none
of the three smaller collected renders is among the images given to the
`save` call, so the claim fails on the run of `main` itself (the
concrete input).  The provided image is the 256x256 render, which none
of the smaller renders equals (the widths differ). -/
theorem claim_C1_counterexample :
    ¬ (create_printer_icon 16 = (saveCallOf create_printer_icon).image ∨
       create_printer_icon 32 = (saveCallOf create_printer_icon).image ∨
       create_printer_icon 48 = (saveCallOf create_printer_icon).image) := by
  rw [saveCallOf_image]
  rintro (h | h | h) <;> exact absurd (congrArg Img.width h) (by decide)

/-- C1, amended.  `main` renders once per entry of `[16, 32, 48, 256]`
in the given order and collects one image per size, but the save call
receives only the last collected image (the 256x256 render) together
with the four requested `(width, height)` entries; the smaller
collected renders are not passed to the encoder, and the container's
smaller frames are derived by the encoder from the 256x256 image
rather than being the collected `render(16)`, `render(32)`,
`render(48)`. -/
theorem claim_C1_amended_thm :
    iconsOf create_printer_icon =
      [create_printer_icon 16, create_printer_icon 32, create_printer_icon 48,
        create_printer_icon 256] ∧
    (saveCallOf create_printer_icon).image = create_printer_icon 256 ∧
    (saveCallOf create_printer_icon).sizeEntries =
      [(16, 16), (32, 32), (48, 48), (256, 256)] :=
  ⟨rfl, rfl, rfl⟩

/-- C2, counterexample.  The claim states the stroke width is
`max(1, round(2 * scale))` with round-to-nearest.  The source computes
`max(1, int(2 * scale))`, truncating: at size 48, `2 * scale = 1.5`,
so the code uses width `1` while the claimed formula gives `2`. -/
theorem claim_C2_counterexample :
    (paperShape 48).strokeW ≠ max 1 (Int.toNat (round (2 * scale 48))) := by
  norm_num [paperShape, Shape.strokeW, line_width, scale, round_eq,
    show Int.toNat 1 = 1 from rfl, show Int.toNat 2 = 2 from rfl]

/-- C2, amended.  For every positive size, the stroke width of the
output-paper, printer-body and paper-tray rectangles equals
`max(1, int(2 * scale))` where `int` truncates toward zero — that is,
`max 1 (2 * S / 64)` with natural division — not round-to-nearest. -/
theorem claim_C2_amended_thm (S : ℕ) (h : 0 < S) :
    (paperShape S).strokeW = max 1 (2 * S / 64) ∧
    (bodyShape S).strokeW = max 1 (2 * S / 64) ∧
    (trayShape S).strokeW = max 1 (2 * S / 64) := by
  have key : line_width S = max 1 (2 * S / 64) := by
    unfold line_width scale
    congr 1
    rw [Int.floor_toNat]
    have h1 : 2 * ((S : ℚ) / 64) = ((2 * S : ℕ) : ℚ) / ((64 : ℕ) : ℚ) := by
      push_cast; ring
    rw [h1, Nat.floor_div_nat, Nat.floor_natCast]
  exact ⟨key, key, key⟩

/-- C2, witness at size 48. -/
theorem claim_C2_witness :
    0 < 48 ∧ (paperShape 48).strokeW = max 1 (2 * 48 / 64) :=
  ⟨by norm_num, (claim_C2_amended_thm 48 (by norm_num)).1⟩

/-- C5, counterexample.  The claim says every drawn shape's coordinates
are proportional to S.  The accent panel's left edge is
`body_x + 2 * line_width`, and `line_width = max(1, int(2 * scale))` is
not proportional to S: at S = 16 the ratio is `4.4 / 16 = 0.275`, at
S = 64 it is `13.6 / 64 = 0.2125`. -/
theorem claim_C5_counterexample :
    (panelShape 16).left / 16 ≠ (panelShape 64).left / 64 := by
  norm_num [panelShape, Shape.left, body_x, line_width, scale,
    show Int.toNat 0 = 0 from rfl, show Int.toNat 2 = 2 from rfl]

/-- C5, amended.  `render(S)` returns an image with width = height = S,
and the coordinates of the output paper, printer body, power button and
paper tray are proportional to S with fixed coefficients; the accent
panel's insets, however, depend on the clamped, truncated `line_width`
and are not proportional to S. -/
theorem claim_C5_amended_thm (S : ℕ) :
    (create_printer_icon S).width = S ∧
    (create_printer_icon S).height = S ∧
    paper_x S = 1 / 4 * S ∧ paper_y S = 1 / 20 * S ∧
    paper_w S = 1 / 2 * S ∧ paper_h S = 3 / 10 * S ∧
    body_x S = 3 / 20 * S ∧ body_y S = 1 / 4 * S ∧
    body_w S = 7 / 10 * S ∧ body_h S = 1 / 2 * S ∧
    panel_y S = 2 / 5 * S ∧
    button_x S = 71 / 100 * S ∧ button_y S = 13 / 40 * S ∧
    button_r S = 1 / 20 * S ∧
    tray_y S = 3 / 4 * S ∧ tray_h S = 3 / 20 * S := by
  refine ⟨rfl, rfl, ?_, ?_, ?_, ?_, ?_, ?_, ?_, ?_, ?_, ?_, ?_, ?_, ?_, ?_⟩ <;>
    · simp only [paper_x, paper_y, paper_w, paper_h, body_x, body_y, body_w,
        body_h, panel_y, button_x, button_y, button_r, tray_y, tray_h]
      ring_nf

/-- C8.  The printer-body rectangle drawn on `render(S)` has width
exactly `0.7 * S`, and for positive S the ratio of that width to the
image width S equals `7/10` independently of S. -/
theorem claim_C8_thm (S : ℕ) (h : 0 < S) :
    (bodyShape S).right - (bodyShape S).left = 0.7 * S ∧
    ((bodyShape S).right - (bodyShape S).left) / S = 7 / 10 := by
  have hS : ((S : ℚ)) ≠ 0 := Nat.cast_ne_zero.mpr h.ne'
  have hw : (bodyShape S).right - (bodyShape S).left = 0.7 * S := by
    simp only [bodyShape, Shape.right, Shape.left, body_w]
    ring
  refine ⟨hw, ?_⟩
  rw [hw]
  rw [show (0.7 : ℚ) = 7 / 10 by norm_num]
  field_simp
  ring

/-- C8, witness at size 64. -/
theorem claim_C8_witness :
    0 < 64 ∧ ((bodyShape 64).right - (bodyShape 64).left) / 64 = 7 / 10 :=
  ⟨by norm_num, (claim_C8_thm 64 (by norm_num)).2⟩

/-- An example byte-level consumer of the save call, used by the C9
witness: any such function gives equal results on equal calls. -/
def countEnc : SaveCall → List ℕ := fun c => [c.sizeEntries.length]

/-- C9.  The data `main` passes to the `save` call — hence the bytes
any (deterministic) encoder writes — is a function of the last
collected image alone: two runs whose 256x256 renders agree produce
identical save calls, whatever the renders for 16, 32 and 48 were. -/
theorem claim_C9_thm (r1 r2 : ℕ → Img) (h : r1 256 = r2 256)
    (enc : SaveCall → List ℕ) :
    enc (saveCallOf r1) = enc (saveCallOf r2) := by
  have e1 : saveCallOf r1 =
      ⟨r1 256, ['I', 'C', 'O'], [(16, 16), (32, 32), (48, 48), (256, 256)]⟩ := rfl
  have e2 : saveCallOf r2 =
      ⟨r2 256, ['I', 'C', 'O'], [(16, 16), (32, 32), (48, 48), (256, 256)]⟩ := rfl
  rw [e1, e2, h]

/-- C9, witness: two (syntactically equal) runs of the actual renderer. -/
theorem claim_C9_witness :
    create_printer_icon 256 = create_printer_icon 256 ∧
    countEnc (saveCallOf create_printer_icon) =
      countEnc (saveCallOf create_printer_icon) :=
  ⟨rfl, claim_C9_thm create_printer_icon create_printer_icon rfl countEnc⟩

/-- C6.  The renderer is deterministic — it is a pure function of the
size, consulting no randomness or external state, so two calls with the
same S yield the identical image — and every pixel outside all drawn
shapes keeps the fully transparent background color. -/
theorem claim_C6_thm (S : ℕ) (x y : ℤ)
    (h : ∀ s ∈ drawList S, s.covers x y = false) :
    create_printer_icon S = create_printer_icon S ∧
    (create_printer_icon S).pix x y = transparent :=
  ⟨rfl, foldl_of_not_covered x y (drawList S) transparent h⟩

/-- C6, witness: at size 16 the pixel (0, 0) is outside every drawn
shape and is transparent. -/
theorem claim_C6_witness :
    (∀ s ∈ drawList 16, s.covers 0 0 = false) ∧
    (create_printer_icon 16).pix 0 0 = transparent := by
  have h : ∀ s ∈ drawList 16, s.covers 0 0 = false := by
    intro s hs
    rw [drawList_of_lt 16 (by norm_num)] at hs
    simp only [List.mem_cons, List.not_mem_nil, or_false] at hs
    rcases hs with rfl | rfl | rfl | rfl <;>
      norm_num [paperShape, bodyShape, panelShape, trayShape, Shape.covers,
        paper_x, paper_y, paper_w, paper_h, body_x, body_y, body_w, body_h,
        panel_y, tray_y, tray_h, line_width, scale]
  exact ⟨h, (claim_C6_thm 16 0 0 h).2⟩

/-- C7.  The shapes are applied in strict program order — output paper,
printer body, accent panel, power button (when `32 ≤ S`), paper tray,
as listed by `drawList` — and on any pixel the final value is the one
written by the last shape in that order that covers the pixel:
whenever the draw list splits as `l1 ++ s :: l2` with `s` covering the
pixel and no later shape covering it, the rendered pixel is exactly the
color `s` writes. -/
theorem claim_C7_thm (S : ℕ) (l1 l2 : List Shape) (s : Shape) (x y : ℤ)
    (hsplit : drawList S = l1 ++ s :: l2) (hc : s.covers x y = true)
    (hlater : ∀ t ∈ l2, t.covers x y = false) :
    (create_printer_icon S).pix x y = s.colorAt x y := by
  rw [cpi_pix]
  unfold paintPixel
  rw [hsplit, List.foldl_append, List.foldl_cons, hc, if_pos rfl]
  exact foldl_of_not_covered x y l2 (s.colorAt x y) hlater

/-- C7, witness: at size 64 the pixel (20, 50) lies in the overlap of
the printer body and the paper tray; the tray is drawn last among the
shapes covering it and determines the pixel. -/
theorem claim_C7_witness :
    (trayShape 64).covers 20 50 = true ∧
    (create_printer_icon 64).pix 20 50 = (trayShape 64).colorAt 20 50 := by
  have hc : (trayShape 64).covers 20 50 = true := by
    norm_num [trayShape, Shape.covers, body_x, body_w, body_y, body_h,
      tray_y, tray_h]
  refine ⟨hc, claim_C7_thm 64
    [paperShape 64, bodyShape 64, panelShape 64, buttonShape 64] []
    (trayShape 64) 20 50 ?_ hc ?_⟩
  · rw [drawList_of_ge 64 (by norm_num)]; rfl
  · intro t ht
    exact absurd ht (List.not_mem_nil t)

/-- C10.  Every pixel of `render(S)` is either fully transparent
(alpha 0) or fully opaque (alpha 255): the background is
`(0, 0, 0, 0)` and every fill and outline color of every drawn shape
is an opaque constant. -/
theorem claim_C10_thm (S : ℕ) (x y : ℤ) :
    ((create_printer_icon S).pix x y).a = 0 ∨
    ((create_printer_icon S).pix x y).a = 255 := by
  rw [cpi_pix]
  rcases paintPixel_cases (drawList S) x y with h0 | ⟨s, hs, hc⟩
  · left; rw [h0]; rfl
  · right
    have halpha : s.fillC.a = 255 ∧ s.outlC.a = 255 := by
      by_cases h32 : 32 ≤ S
      · rw [drawList_of_ge S h32] at hs
        simp only [List.mem_cons, List.not_mem_nil, or_false] at hs
        rcases hs with rfl | rfl | rfl | rfl | rfl <;> exact ⟨rfl, rfl⟩
      · rw [drawList_of_lt S (by omega)] at hs
        simp only [List.mem_cons, List.not_mem_nil, or_false] at hs
        rcases hs with rfl | rfl | rfl | rfl <;> exact ⟨rfl, rfl⟩
    rcases colorAt_fill_or_outl s x y with hf | hf <;> rw [hc, hf]
    · exact halpha.1
    · exact halpha.2

/-- C4.  The power button is drawn exactly when `32 ≤ S`: for every
size `32 ≤ S` some pixel inside the button's bounding box
`[button_x - button_r, button_y - button_r, button_x + button_r,
button_y + button_r]` of `render(S)` carries the button's green fill
color `(100, 200, 100)`, and for every size `S < 32` no pixel of
`render(S)` carries that color. -/
theorem claim_C4_thm (S : ℕ) :
    (32 ≤ S → ∃ x y : ℤ,
      (button_x S - button_r S ≤ (x : ℚ) ∧ (x : ℚ) ≤ button_x S + button_r S ∧
       button_y S - button_r S ≤ (y : ℚ) ∧ (y : ℚ) ≤ button_y S + button_r S) ∧
      (create_printer_icon S).pix x y = button_fill_color) ∧
    (S < 32 → ∀ x y : ℤ, (create_printer_icon S).pix x y ≠ button_fill_color) := by
  constructor
  · intro h32
    by_cases h35 : 35 ≤ S
    · -- general case: the pixel nearest the button center is well
      -- inside the fill disk, and the tray (the only later draw) stays
      -- below it
      have hSq : (35 : ℚ) ≤ (S : ℚ) := by exact_mod_cast h35
      have hfl : ((Int.toNat ⌊2 * scale S⌋ : ℕ) : ℚ) ≤ (S : ℚ) / 32 := by
        have h0 : (0 : ℚ) ≤ 2 * scale S := by
          unfold scale; positivity
        rw [Int.floor_toNat]
        calc ((⌊2 * scale S⌋₊ : ℕ) : ℚ) ≤ 2 * scale S := Nat.floor_le h0
          _ = (S : ℚ) / 32 := by unfold scale; ring
      have h1lw : 1 ≤ line_width S := by
        unfold line_width; exact le_max_left _ _
      have hlwq : ((line_width S : ℕ) : ℚ) ≤ (S : ℚ) / 32 := by
        unfold line_width
        rw [Nat.cast_max]
        apply max_le
        · push_cast; linarith
        · exact hfl
      have hwq : ((max 1 (line_width S - 1) : ℕ) : ℚ) ≤ (S : ℚ) / 20 - 3 / 4 := by
        rw [Nat.cast_max]
        apply max_le
        · push_cast; linarith
        · rw [Nat.cast_sub h1lw]
          push_cast
          linarith
      have hwpos : (0 : ℚ) ≤ ((max 1 (line_width S - 1) : ℕ) : ℚ) := by positivity
      have hr34 : 3 / 4 ≤ button_r S - ((max 1 (line_width S - 1) : ℕ) : ℚ) := by
        rw [button_r_eq]; linarith
      set a : ℤ := round (button_x S) with ha_def
      set b : ℤ := round (button_y S) with hb_def
      have hax := abs_le.mp (abs_sub_round (button_x S))
      have hby := abs_le.mp (abs_sub_round (button_y S))
      have ha2 : ((a : ℚ) - button_x S) ^ 2 ≤ (1 / 2) ^ 2 := by
        apply sq_le_sq'
        · linarith [hax.2]
        · linarith [hax.1]
      have hb2 : ((b : ℚ) - button_y S) ^ 2 ≤ (1 / 2) ^ 2 := by
        apply sq_le_sq'
        · linarith [hby.2]
        · linarith [hby.1]
      have hfill : ((a : ℚ) - button_x S) ^ 2 + ((b : ℚ) - button_y S) ^ 2 ≤
          (button_r S - ((max 1 (line_width S - 1) : ℕ) : ℚ)) ^ 2 := by
        have h34 : ((3 : ℚ) / 4) ^ 2 ≤
            (button_r S - ((max 1 (line_width S - 1) : ℕ) : ℚ)) ^ 2 :=
          pow_le_pow_left₀ (by norm_num) hr34 2
        have e1 : ((1 : ℚ) / 2) ^ 2 = 1 / 4 := by norm_num
        have e2 : ((3 : ℚ) / 4) ^ 2 = 9 / 16 := by norm_num
        linarith
      have hcov : ((a : ℚ) - button_x S) ^ 2 + ((b : ℚ) - button_y S) ^ 2 ≤
          (button_r S) ^ 2 :=
        hfill.trans (pow_le_pow_left₀ (by linarith) (by linarith) 2)
      have hbtn : (buttonShape S).covers a b = true := by
        simp only [buttonShape, Shape.covers, decide_eq_true_eq]
        exact hcov
      have hcol : (buttonShape S).colorAt a b = button_fill_color := by
        simp only [buttonShape, Shape.colorAt]
        rw [if_pos hfill]
      have htr : (trayShape S).covers a b = false := by
        simp only [trayShape, Shape.covers, decide_eq_false_iff_not]
        rintro ⟨-, -, h3, -⟩
        rw [tray_y_eq] at h3
        have h3q : ((⌊3 / 4 * (S : ℚ)⌋ : ℤ) : ℚ) ≤ (b : ℚ) := by exact_mod_cast h3
        have hfl2 : 3 / 4 * (S : ℚ) - 1 < ((⌊3 / 4 * (S : ℚ)⌋ : ℤ) : ℚ) :=
          Int.sub_one_lt_floor _
        have hb_up : (b : ℚ) ≤ button_y S + 1 / 2 := by linarith [hby.1]
        rw [button_y_eq] at hb_up
        linarith
      refine ⟨a, b, ⟨?_, ?_, ?_, ?_⟩, ?_⟩
      · rw [button_r_eq]; linarith [hax.2, hSq]
      · rw [button_r_eq]; linarith [hax.1, hSq]
      · rw [button_r_eq]; linarith [hby.2, hSq]
      · rw [button_r_eq]; linarith [hby.1, hSq]
      · rw [cpi_pix, drawList_of_ge S h32]
        unfold paintPixel
        simp only [List.foldl_cons, List.foldl_nil, hbtn, htr,
          eq_self_iff_true, if_true, Bool.false_eq_true, if_false]
        exact hcol
    · -- the three remaining sizes, checked on explicit pixels
      have hub : S < 35 := by omega
      interval_cases S
      · refine ⟨23, 10, ?_, ?_⟩
        · norm_num [button_x, button_y, button_r, body_x, body_w, body_y, body_h]
        · rw [cpi_pix]
          norm_num [paintPixel, drawList, Shape.covers, Shape.colorAt,
            paperShape, bodyShape, panelShape, buttonShape, trayShape,
            paper_x, paper_y, paper_w, paper_h, body_x, body_y, body_w, body_h,
            panel_y, button_x, button_y, button_r, tray_y, tray_h,
            line_width, scale]
      · refine ⟨23, 11, ?_, ?_⟩
        · norm_num [button_x, button_y, button_r, body_x, body_w, body_y, body_h]
        · rw [cpi_pix]
          norm_num [paintPixel, drawList, Shape.covers, Shape.colorAt,
            paperShape, bodyShape, panelShape, buttonShape, trayShape,
            paper_x, paper_y, paper_w, paper_h, body_x, body_y, body_w, body_h,
            panel_y, button_x, button_y, button_r, tray_y, tray_h,
            line_width, scale]
      · refine ⟨24, 11, ?_, ?_⟩
        · norm_num [button_x, button_y, button_r, body_x, body_w, body_y, body_h]
        · rw [cpi_pix]
          norm_num [paintPixel, drawList, Shape.covers, Shape.colorAt,
            paperShape, bodyShape, panelShape, buttonShape, trayShape,
            paper_x, paper_y, paper_w, paper_h, body_x, body_y, body_w, body_h,
            panel_y, button_x, button_y, button_r, tray_y, tray_h,
            line_width, scale]
  · intro hlt x y
    rw [cpi_pix]
    rcases paintPixel_cases (drawList S) x y with h0 | ⟨s, hs, hc⟩
    · rw [h0]
      simp [transparent, button_fill_color]
    · rw [drawList_of_lt S hlt] at hs
      simp only [List.mem_cons, List.not_mem_nil, or_false] at hs
      rcases hs with rfl | rfl | rfl | rfl <;>
        rcases colorAt_fill_or_outl _ x y with hf | hf <;>
          rw [hc, hf] <;>
            simp [paperShape, bodyShape, panelShape, trayShape, Shape.fillC,
              Shape.outlC, paper_color, printer_body_color, accent_color,
              tray_fill_color, outline_color, button_fill_color]

/-- C4, witness: at size 32 a green pixel exists in the button box; at
size 16 no pixel is green. -/
theorem claim_C4_witness :
    (∃ x y : ℤ,
      (button_x 32 - button_r 32 ≤ (x : ℚ) ∧
       (x : ℚ) ≤ button_x 32 + button_r 32 ∧
       button_y 32 - button_r 32 ≤ (y : ℚ) ∧
       (y : ℚ) ≤ button_y 32 + button_r 32) ∧
      (create_printer_icon 32).pix x y = button_fill_color) ∧
    (∀ x y : ℤ, (create_printer_icon 16).pix x y ≠ button_fill_color) :=
  ⟨(claim_C4_thm 32).1 (by norm_num), (claim_C4_thm 16).2 (by norm_num)⟩

end PrintIcon
